import Mathlib

/-!
Verification development for a minimal slot-booking backend (`src/server.js`).

The persisted store is a JSON object mapping date strings (`YYYY-MM-DD`) to
arrays of slot strings.  We embed it as an association list that preserves
key-insertion order, mirroring JavaScript object semantics (string keys are
enumerated in insertion order).  Each HTTP handler becomes a pure function
from the store (and request data) to a result together with the new store.
File I/O always succeeds in the model; a write failure (HTTP 500) is an
environment fault outside the embedded state machine.  A JavaScript runtime
exception is modelled by an `Option`-valued operation returning `none`.
-/

/-- The persisted store: date key to ordered list of booked slot labels,
in key-insertion order, as a JavaScript object holds it. -/
abbrev Store := List (String × List String)

/-- Lookup of `data[date]`: the first (in a real store, only) entry with the
given key. -/
def findDate : Store → String → Option (List String)
  | [], _ => none
  | p :: ps, d => if p.1 = d then some p.2 else findDate ps d

/-- `data[date] || []`: the booked slots for a date, empty when absent. -/
def getBooked (store : Store) (d : String) : List String :=
  (findDate store d).getD []

/-- The mutation of the book handler: `if (!data[date]) data[date] = []`
followed by `data[date].push(slot)`.  A fresh key is appended at the end of
the object, an existing key keeps its position and its list is extended. -/
def pushSlot : Store → String → String → Store
  | [], d, s => [(d, [s])]
  | p :: ps, d, s => if p.1 = d then (p.1, p.2 ++ [s]) :: ps else p :: pushSlot ps d s

/-- The mutation of the delete handler:
`data[date] = data[date].filter(s => s !== slot)` followed by
`if (data[date].length === 0) delete data[date]`. -/
def removeSlot : Store → String → String → Store
  | [], _, _ => []
  | p :: ps, d, s =>
    if p.1 = d then
      if p.2.filter (fun x => x != s) = [] then ps
      else (p.1, p.2.filter (fun x => x != s)) :: ps
    else p :: removeSlot ps d s

/-- `DEFAULT_SLOTS` from the source. -/
def DEFAULT_SLOTS : List String :=
  ["08:00", "09:00", "10:00", "11:00", "14:00", "15:00", "16:00", "17:00"]

/-- `SATURDAY_SLOTS` from the source. -/
def SATURDAY_SLOTS : List String :=
  ["09:00", "10:00", "11:00", "12:00"]

/-- `str.split('-')` on the underlying characters, accumulating the current
segment in reverse. -/
def splitDashAux : List Char → List Char → List String
  | [], acc => [String.mk acc.reverse]
  | c :: cs, acc =>
    if c = '-' then String.mk acc.reverse :: splitDashAux cs []
    else splitDashAux cs (c :: acc)

/-- JavaScript `str.split('-')`: every dash separates segments; a string
without a dash yields the one-element list `[str]`. -/
def splitDash (s : String) : List String := splitDashAux s.data []

/-- JavaScript `str.replace(a, b)` with one-character arguments: replaces only
the first occurrence. -/
def replaceFirstAux : List Char → Char → Char → List Char
  | [], _, _ => []
  | c :: cs, a, b => if c = a then b :: cs else c :: replaceFirstAux cs a b

/-- String wrapper for `replaceFirstAux`. -/
def replaceFirst (s : String) (a b : Char) : String :=
  String.mk (replaceFirstAux s.data a b)

/-- `time.substring(0, 2)` — the first two characters (clamped). -/
def jsSubstring02 (t : String) : String := String.mk (t.data.take 2)

/-- `time.substring(3)` — everything from index 3 on (empty when shorter). -/
def jsSubstringFrom3 (t : String) : String := String.mk (t.data.drop 3)

/-- The booking id built by the `GET /bookings` handler:
`` `${date}-${slot.replace(':', '-')}` ``. -/
def encodeId (date slot : String) : String :=
  date ++ "-" ++ replaceFirst slot ':' '-'

/-- The decode step of the `DELETE /booking/:id` handler:
`const [date, time] = bookingId.split('-')` and
`` const slot = `${time.substring(0, 2)}:${time.substring(3)}` ``.
When the split yields a single segment, `time` is `undefined` and
`time.substring` raises a `TypeError`; that crash is modelled by `none`. -/
def decodeId (id : String) : Option (String × String) :=
  match splitDash id with
  | date :: time :: _ => some (date, jsSubstring02 time ++ ":" ++ jsSubstringFrom3 time)
  | _ => none

/-- Checks `y` for a Gregorian leap year. -/
def isLeap (y : Nat) : Bool :=
  y % 4 == 0 && (y % 100 != 0 || y % 400 == 0)

/-- Days in month `m` of year `y`. -/
def daysInMonth (y m : Nat) : Nat :=
  if m = 2 then (if isLeap y then 29 else 28)
  else if m = 4 ∨ m = 6 ∨ m = 9 ∨ m = 11 then 30
  else 31

/-- Digits-to-number accumulator. -/
def digitsToNat (cs : List Char) : Nat :=
  cs.foldl (fun n c => n * 10 + (c.toNat - 48)) 0

/-- `new Date(date)` on a date-only ISO string: accepts exactly
`YYYY-MM-DD` with in-range month and day; anything else is an Invalid Date,
modelled by `none`. -/
def parseYMD (str : String) : Option (Nat × Nat × Nat) :=
  match splitDash str with
  | [ys, ms, ds] =>
    if (ys.data.length = 4 ∧ ms.data.length = 2 ∧ ds.data.length = 2)
        ∧ (ys.data ++ ms.data ++ ds.data).all Char.isDigit then
      let y := digitsToNat ys.data
      let m := digitsToNat ms.data
      let d := digitsToNat ds.data
      if (1 ≤ m ∧ m ≤ 12) ∧ (1 ≤ d ∧ d ≤ daysInMonth y m) then some (y, m, d)
      else none
    else none
  | _ => none

/-- Day of week of a Gregorian date, 0 = Sunday … 6 = Saturday
(Sakamoto's method), agreeing with JavaScript `Date.prototype.getDay`
for a UTC-midnight date viewed in UTC. -/
def sakamoto (y m d : Nat) : Nat :=
  let yy := if m < 3 then y - 1 else y
  (yy + yy / 4 - yy / 100 + yy / 400
      + [0, 3, 2, 5, 0, 3, 5, 1, 4, 6, 2, 4].getD (m - 1) 0 + d) % 7

/-- `new Date(date).getDay()`: `none` models the `NaN` of an Invalid Date
(`NaN === 6` is false, so such dates fall to the default template). -/
def getDay (date : String) : Option Nat :=
  (parseYMD date).map (fun t => sakamoto t.1 t.2.1 t.2.2)

/-- `const allSlots = (day === 6) ? SATURDAY_SLOTS : DEFAULT_SLOTS`. -/
def templateFor (date : String) : List String :=
  if getDay date = some 6 then SATURDAY_SLOTS else DEFAULT_SLOTS

/-- The JSON body of a successful `GET /slots` response. -/
structure Availability where
  date : String
  available : List String
  booked : List String
deriving DecidableEq

/-- The `GET /slots` handler.  `none` models the 400 invalid-input response
sent when the `date` query parameter is missing; that return happens before
`readData()`, so the error path never touches the store. -/
def getAvailability (store : Store) (date : String) : Option Availability :=
  if date = "" then none
  else
    let booked := getBooked store date
    some ⟨date, (templateFor date).filter (fun s => !(booked.contains s)), booked⟩

/-- Outcome of the `POST /book` handler. -/
inductive BookResult
  | invalidInput
  | conflict
  | success (date slot : String)
deriving DecidableEq

/-- The `POST /book` handler: 400 when date or slot is missing, 409 when the
slot is already in the date's list (nothing persisted), otherwise the slot is
appended and the store persisted.  `client` and `vehicle` are destructured
from the body but used only in a log line. -/
def book (store : Store) (date slot : String) (client vehicle : Option String) :
    BookResult × Store :=
  if date = "" ∨ slot = "" then (.invalidInput, store)
  else if slot ∈ getBooked store date then (.conflict, store)
  else (.success date slot, pushSlot store date slot)

/-- Outcome of the `DELETE /booking/:id` handler. -/
inductive CancelResult
  | notFound
  | success
deriving DecidableEq

/-- The `DELETE /booking/:id` handler: decodes the id, answers 404 when
`!data[date] || !data[date].includes(slot)` (store untouched), otherwise
filters the slot out, prunes the date key if its list became empty, and
persists.  `none` models the uncaught decode exception. -/
def cancel (store : Store) (id : String) : Option (CancelResult × Store) :=
  match decodeId id with
  | none => none
  | some (date, slot) =>
    if findDate store date = none ∨ slot ∉ getBooked store date then
      some (.notFound, store)
    else
      some (.success, removeSlot store date slot)

/-- One element of the `GET /bookings` response array. -/
structure BookingView where
  date : String
  slot : String
  id : String
deriving DecidableEq

/-- The `GET /bookings` handler: flattens the store in (date-insertion,
slot-insertion) order, attaching the encoded id to each booking. -/
def listBookings (store : Store) : List BookingView :=
  store.flatMap (fun p => p.2.map (fun s => ⟨p.1, s, encodeId p.1 s⟩))

/-- The store invariant of the spec: every present date key has a non-empty
booking list, and no list holds a duplicate slot label. -/
def WF (store : Store) : Prop :=
  ∀ p ∈ store, p.2 ≠ [] ∧ p.2.Nodup

theorem getBooked_nil (d : String) : getBooked [] d = [] := rfl

theorem getBooked_cons_eq (q : String × List String) (qs : Store) (d : String)
    (h : q.1 = d) : getBooked (q :: qs) d = q.2 := by
  simp [getBooked, findDate, h]

theorem getBooked_cons_ne (q : String × List String) (qs : Store) (d : String)
    (h : ¬ q.1 = d) : getBooked (q :: qs) d = getBooked qs d := by
  simp [getBooked, findDate, h]

theorem getBooked_pushSlot (store : Store) (d s : String) :
    getBooked (pushSlot store d s) d = getBooked store d ++ [s] := by
  induction store with
  | nil => simp [pushSlot, getBooked, findDate]
  | cons q qs ih =>
    by_cases hq : q.1 = d
    · simp [pushSlot, hq, getBooked, findDate]
    · simp only [pushSlot, if_neg hq]
      rw [getBooked_cons_ne q (pushSlot qs d s) d hq, getBooked_cons_ne q qs d hq, ih]

theorem WF_pushSlot (store : Store) (d s : String) :
    WF store → s ∉ getBooked store d → WF (pushSlot store d s) := by
  induction store with
  | nil =>
    intro _ _ p hp
    simp only [pushSlot, List.mem_singleton] at hp
    subst hp
    simp
  | cons q qs ih =>
    intro hw hm p hp
    simp only [pushSlot] at hp
    by_cases hq : q.1 = d
    · rw [if_pos hq] at hp
      rw [getBooked_cons_eq q qs d hq] at hm
      rcases List.mem_cons.mp hp with h1 | h2
      · subst h1
        have hq2 := hw q (List.mem_cons_self q qs)
        refine ⟨by simp, ?_⟩
        simp [List.nodup_append, hq2.2, hm]
      · exact hw p (List.mem_cons_of_mem q h2)
    · rw [if_neg hq] at hp
      rw [getBooked_cons_ne q qs d hq] at hm
      rcases List.mem_cons.mp hp with h1 | h2
      · rw [h1]
        exact hw q (List.mem_cons_self q qs)
      · exact ih (fun r hr => hw r (List.mem_cons_of_mem q hr)) hm p h2

theorem WF_removeSlot (store : Store) (d s : String) :
    WF store → WF (removeSlot store d s) := by
  induction store with
  | nil => intro hw; exact hw
  | cons q qs ih =>
    intro hw p hp
    simp only [removeSlot] at hp
    by_cases hq : q.1 = d
    · rw [if_pos hq] at hp
      by_cases he : q.2.filter (fun x => x != s) = []
      · rw [if_pos he] at hp
        exact hw p (List.mem_cons_of_mem q hp)
      · rw [if_neg he] at hp
        rcases List.mem_cons.mp hp with h1 | h2
        · subst h1
          exact ⟨he, ((hw q (List.mem_cons_self q qs)).2).filter _⟩
        · exact hw p (List.mem_cons_of_mem q h2)
    · rw [if_neg hq] at hp
      rcases List.mem_cons.mp hp with h1 | h2
      · rw [h1]
        exact hw q (List.mem_cons_self q qs)
      · exact ih (fun r hr => hw r (List.mem_cons_of_mem q hr)) p h2

theorem splitDashAux_eq_of_no_dash (cs : List Char) :
    '-' ∉ cs → ∀ acc, splitDashAux cs acc = [String.mk (acc.reverse ++ cs)] := by
  induction cs with
  | nil => intro _ acc; simp [splitDashAux]
  | cons c cs ih =>
    intro h acc
    have hc : ¬ c = '-' := fun hh => h (hh ▸ List.mem_cons_self c cs)
    simp only [splitDashAux, if_neg hc]
    rw [ih (fun hh => h (List.mem_cons_of_mem c hh)) (c :: acc)]
    congr 1
    simp

theorem splitDash_eq_of_no_dash (s : String) (h : '-' ∉ s.data) : splitDash s = [s] := by
  unfold splitDash
  rw [splitDashAux_eq_of_no_dash s.data h []]
  simp

theorem cancel_none (store : Store) (id : String) (hdec : decodeId id = none) :
    cancel store id = none := by
  unfold cancel
  rw [hdec]

theorem cancel_some (store : Store) (id d s : String)
    (hdec : decodeId id = some (d, s)) :
    cancel store id =
      if findDate store d = none ∨ s ∉ getBooked store d then
        some (CancelResult.notFound, store)
      else some (CancelResult.success, removeSlot store d s) := by
  unfold cancel
  rw [hdec]

/-- Claim C1: decoding the booking id emitted by ListBookings should recover
the original (date, slot) pair.  The code violates this: for the pair
("2024-06-08", "09:00") the emitted id is "2024-06-08-09-00", and the delete
handler's decode yields ("2024", "06:"), because `split('-')` also splits the
date's own dashes and the destructuring keeps only the first two segments. -/
theorem c1_decode_not_left_inverse :
    decodeId (encodeId "2024-06-08" "09:00") = some ("2024", "06:") ∧
    decodeId (encodeId "2024-06-08" "09:00") ≠ some ("2024-06-08", "09:00") := by
  decide

/-- Claim C2: once `Book(d, s)` has succeeded, an immediately repeated
`Book(d, s)` (with any client/vehicle fields) answers Conflict and returns
the store unchanged. -/
theorem c2_rebook_conflicts (store : Store) (d s : String)
    (c1 v1 c2 v2 : Option String) (st' : Store)
    (hd : d ≠ "") (hs : s ≠ "")
    (h : book store d s c1 v1 = (BookResult.success d s, st')) :
    book st' d s c2 v2 = (BookResult.conflict, st') := by
  unfold book at h
  by_cases h0 : d = "" ∨ s = ""
  · rw [if_pos h0] at h
    simp at h
  · rw [if_neg h0] at h
    by_cases hm : s ∈ getBooked store d
    · rw [if_pos hm] at h
      simp at h
    · rw [if_neg hm] at h
      have hst : st' = pushSlot store d s := by
        have := congrArg Prod.snd h
        exact this.symm
      subst hst
      have hm2 : s ∈ getBooked (pushSlot store d s) d := by
        rw [getBooked_pushSlot]
        simp
      unfold book
      rw [if_neg h0, if_pos hm2]

/-- Witness for C2 at a concrete input. -/
theorem c2_rebook_conflicts_witness :
    book [("2024-06-08", ["09:00"])] "2024-06-08" "09:00" none none =
      (BookResult.conflict, [("2024-06-08", ["09:00"])]) :=
  c2_rebook_conflicts [] "2024-06-08" "09:00" none none none none
    [("2024-06-08", ["09:00"])] (by decide) (by decide) (by decide)

/-- Claim C3: after `Book("2024-06-08", "09:00")` succeeds ("09:00" belongs to
the Saturday template of that date), the claim says cancelling the emitted id
succeeds and frees the slot.  The code violates this: the decode of the id
"2024-06-08-09-00" yields ("2024", "06:"), which is not in the store, so the
delete handler answers 404 NotFound, the booking stays, and the date still
appears in ListBookings. -/
theorem c3_cancel_of_booked_id_fails :
    "09:00" ∈ templateFor "2024-06-08" ∧
    book [] "2024-06-08" "09:00" none none =
      (BookResult.success "2024-06-08" "09:00", [("2024-06-08", ["09:00"])]) ∧
    cancel [("2024-06-08", ["09:00"])] (encodeId "2024-06-08" "09:00") =
      some (CancelResult.notFound, [("2024-06-08", ["09:00"])]) ∧
    (listBookings [("2024-06-08", ["09:00"])]).length = 1 := by
  decide

/-- Claim C4: both mutating operations preserve the store invariant (every
present date key has a non-empty booking list with no duplicate slot). -/
theorem c4_operations_preserve_wf (store : Store) (hw : WF store)
    (d s id : String) (c v : Option String) :
    WF (book store d s c v).2 ∧
    (∀ r st', cancel store id = some (r, st') → WF st') := by
  constructor
  · unfold book
    by_cases h0 : d = "" ∨ s = ""
    · rw [if_pos h0]
      exact hw
    · rw [if_neg h0]
      by_cases hm : s ∈ getBooked store d
      · rw [if_pos hm]
        exact hw
      · rw [if_neg hm]
        exact WF_pushSlot store d s hw hm
  · intro r st' hc
    cases hdec : decodeId id with
    | none =>
      rw [cancel_none store id hdec] at hc
      exact absurd hc (by simp)
    | some p =>
      obtain ⟨dd, ss⟩ := p
      rw [cancel_some store id dd ss hdec] at hc
      by_cases hnf : findDate store dd = none ∨ ss ∉ getBooked store dd
      · rw [if_pos hnf] at hc
        have h2 : store = st' := congrArg Prod.snd (Option.some.inj hc)
        rw [← h2]
        exact hw
      · rw [if_neg hnf] at hc
        have h2 : removeSlot store dd ss = st' := congrArg Prod.snd (Option.some.inj hc)
        rw [← h2]
        exact WF_removeSlot store dd ss hw

/-- Witness for C4 at a concrete input. -/
theorem c4_operations_preserve_wf_witness :
    WF (book [("2024-06-08", ["09:00"])] "2024-06-08" "10:00" none none).2 ∧
    (∀ r st', cancel [("2024-06-08", ["09:00"])] "2024-06-08-09-00" = some (r, st') →
      WF st') :=
  c4_operations_preserve_wf [("2024-06-08", ["09:00"])] (by unfold WF; decide)
    "2024-06-08" "10:00" "2024-06-08-09-00" none none

/-- Claim C5: availability for a Saturday date is computed from the 4-slot
Saturday template (the available list is a subset of it); every other date
uses the 8-slot default template. -/
theorem c5_template_dispatch (store : Store) (d : String) (a : Availability)
    (h : getAvailability store d = some a) :
    (getDay d = some 6 →
      templateFor d = SATURDAY_SLOTS ∧ SATURDAY_SLOTS.length = 4 ∧
        a.available.Sublist SATURDAY_SLOTS) ∧
    (getDay d ≠ some 6 →
      templateFor d = DEFAULT_SLOTS ∧ DEFAULT_SLOTS.length = 8 ∧
        a.available.Sublist DEFAULT_SLOTS) := by
  unfold getAvailability at h
  by_cases h0 : d = ""
  · rw [if_pos h0] at h
    exact absurd h (by simp)
  · rw [if_neg h0] at h
    have ha : a = ⟨d, (templateFor d).filter
        (fun s => !((getBooked store d).contains s)), getBooked store d⟩ :=
      (Option.some.inj h).symm
    constructor
    · intro h6
      have ht : templateFor d = SATURDAY_SLOTS := by
        simp [templateFor, h6]
      refine ⟨ht, rfl, ?_⟩
      rw [ha]
      exact ht ▸ List.filter_sublist (templateFor d)
    · intro h6
      have ht : templateFor d = DEFAULT_SLOTS := by
        simp [templateFor, h6]
      refine ⟨ht, rfl, ?_⟩
      rw [ha]
      exact ht ▸ List.filter_sublist (templateFor d)

/-- Witness for C5 at a concrete input (2024-06-08 is a Saturday). -/
theorem c5_template_dispatch_witness :
    (getDay "2024-06-08" = some 6 →
      templateFor "2024-06-08" = SATURDAY_SLOTS ∧ SATURDAY_SLOTS.length = 4 ∧
        (Availability.available
          ⟨"2024-06-08", ["09:00", "10:00", "11:00", "12:00"], []⟩).Sublist
          SATURDAY_SLOTS) ∧
    (getDay "2024-06-08" ≠ some 6 →
      templateFor "2024-06-08" = DEFAULT_SLOTS ∧ DEFAULT_SLOTS.length = 8 ∧
        (Availability.available
          ⟨"2024-06-08", ["09:00", "10:00", "11:00", "12:00"], []⟩).Sublist
          DEFAULT_SLOTS) :=
  c5_template_dispatch [] "2024-06-08"
    ⟨"2024-06-08", ["09:00", "10:00", "11:00", "12:00"], []⟩ (by decide)

/-- Claim C6: for every store and non-empty date, GetAvailability succeeds,
reports as booked exactly the stored list for the date (empty when absent),
and as available the day's template minus the booked slots, in template
order. -/
theorem c6_availability_contract (store : Store) (d : String) (hd : d ≠ "") :
    ∃ a, getAvailability store d = some a ∧
      a.booked = getBooked store d ∧
      a.available = (templateFor d).filter
        (fun s => !((getBooked store d).contains s)) ∧
      a.available.Sublist (templateFor d) ∧
      (∀ x, x ∈ a.available ↔ x ∈ templateFor d ∧ x ∉ getBooked store d) := by
  refine ⟨⟨d, (templateFor d).filter
      (fun s => !((getBooked store d).contains s)), getBooked store d⟩,
    ?_, rfl, rfl, List.filter_sublist _, ?_⟩
  · unfold getAvailability
    rw [if_neg hd]
  · intro x
    simp [List.mem_filter]

/-- Witness for C6 at a concrete input. -/
theorem c6_availability_contract_witness :
    ∃ a, getAvailability [("2024-06-08", ["09:00"])] "2024-06-08" = some a ∧
      a.booked = getBooked [("2024-06-08", ["09:00"])] "2024-06-08" ∧
      a.available = (templateFor "2024-06-08").filter
        (fun s => !((getBooked [("2024-06-08", ["09:00"])] "2024-06-08").contains s)) ∧
      a.available.Sublist (templateFor "2024-06-08") ∧
      (∀ x, x ∈ a.available ↔ x ∈ templateFor "2024-06-08" ∧
        x ∉ getBooked [("2024-06-08", ["09:00"])] "2024-06-08") :=
  c6_availability_contract [("2024-06-08", ["09:00"])] "2024-06-08" (by decide)

/-- Claim C7: when the decoded (date, slot) of an id names an absent date or
a slot outside that date's booking list, Cancel answers NotFound and leaves
the store exactly as it was. -/
theorem c7_cancel_notfound_no_mutation (store : Store) (id d s : String)
    (hdec : decodeId id = some (d, s))
    (h : findDate store d = none ∨ s ∉ getBooked store d) :
    cancel store id = some (CancelResult.notFound, store) := by
  rw [cancel_some store id d s hdec, if_pos h]

/-- Witness for C7 at a concrete input. -/
theorem c7_cancel_notfound_no_mutation_witness :
    cancel [] "2024-09" = some (CancelResult.notFound, []) :=
  c7_cancel_notfound_no_mutation [] "2024-09" "2024" "09:" (by decide) (by decide)

/-- Claim C8: a missing (empty) date parameter makes GetAvailability fail
with the invalid-input error, and the outcome is the same whatever the
store holds — the error path never touches the persisted store. -/
theorem c8_missing_date_no_store_access (store store2 : Store) :
    getAvailability store "" = none ∧
    getAvailability store "" = getAvailability store2 "" := by
  constructor <;> simp [getAvailability]

/-- Claim C9: an id without any dash makes the delete handler's decode access
`substring` of an `undefined` segment; the decode (and hence Cancel) does not
return a NotFound response but crashes, modelled by `none`. -/
theorem c9_dashless_id_crashes (store : Store) (id : String)
    (h : '-' ∉ id.data) :
    decodeId id = none ∧ cancel store id = none := by
  have hd : decodeId id = none := by
    unfold decodeId
    rw [splitDash_eq_of_no_dash id h]
  exact ⟨hd, cancel_none store id hd⟩

/-- Witness for C9 at a concrete input. -/
theorem c9_dashless_id_crashes_witness :
    decodeId "abc" = none ∧ cancel [] "abc" = none :=
  c9_dashless_id_crashes [] "abc" (by decide)

/-- Claim C10: the client and vehicle fields of the book request never
influence the result or the resulting store; the handler only logs them. -/
theorem c10_book_ignores_client_vehicle (store : Store) (d s : String)
    (c1 v1 c2 v2 : Option String) :
    book store d s c1 v1 = book store d s c2 v2 := rfl
